import Mathlib

/-!
Verification of the colab-vscode OAuth2 code-acquisition core.

Shallow embedding of the repository's auth-flow core:

* `src/common/multi-step-quickpick.ts` — the `MultiStepInput` run loop
  (back/cancel navigation over a stack of steps) and the `showInputBox`
  widget event handlers (validation on change, gated acceptance).
* `src/auth/flows/proxied.ts` — `ProxiedRedirectFlow.trigger` and its
  manual-entry prompt, composed with the nonce→code registry.
* `src/auth/provider.ts` — the scope normalisation and authorization-URL
  parameters built by `GoogleAuthProvider.createSession`/`login`.
* `src/auth/storage.ts` — `AuthStorage` over a secret-storage backend,
  with the Zod sessions schema.

The `CodeManager` registry (`src/auth/code-manager.ts`) is not part of the
provided sources; it is modelled from the spec where noted.  Promise
settlement is modelled as first-write-wins state, and time as a natural
number of milliseconds with explicit `elapse` transitions firing due
timers.
-/

/-! ## MultiStepInput run loop (multi-step-quickpick.ts, `step`) -/

/-- The outcome of invoking one step closure: return the next step, complete
the flow (`undefined` in the source), or throw one of the sentinel
`InputFlowAction` values (`back`/`cancel`) or an unrelated error. -/
inductive StepResult (σ : Type) where
  | next (s : σ)
  | done
  | back
  | cancel
  | err
deriving DecidableEq

/-- State of one `MultiStepInput` run: the `steps` stack, per-step invocation
counts (steps are stateful closures in the source; the count selects the
behaviour of the k-th call), and the observed invocation order. -/
structure MSState (σ : Type) where
  stack : List σ
  counts : σ → Nat
  trace : List σ

/-- How a whole `MultiStepInput.run` terminates: normal completion,
`InputFlowAction.back` propagating out of the first step, an unrelated
error propagating, or the step-fuel bound being reached. -/
inductive RunOutcome where
  | completed
  | backedOut
  | errored
  | outOfFuel
deriving DecidableEq

/-- The `while (step)` loop of `MultiStepInput.step`: push the current step,
invoke it, and dispatch on the result.  On `back` the just-run step is
popped; with an empty stack `back` propagates to the caller, otherwise the
prior step is popped and re-invoked.  On `cancel` the loop ends quietly.
`fuel` bounds the number of step invocations. -/
def msRun [DecidableEq σ] (behave : σ → Nat → StepResult σ) :
    Nat → Option σ → MSState σ → RunOutcome × MSState σ
  | _, none, st => (.completed, st)
  | 0, some _, st => (.outOfFuel, st)
  | fuel + 1, some s, st =>
    let k := st.counts s
    let st1 : MSState σ :=
      ⟨st.stack ++ [s], fun t => if t = s then k + 1 else st.counts t,
        st.trace ++ [s]⟩
    match behave s k with
    | .next s2 => msRun behave fuel (some s2) st1
    | .done => msRun behave fuel none st1
    | .back =>
      let popped := st1.stack.dropLast
      if popped.isEmpty then (.backedOut, { st1 with stack := popped })
      else msRun behave fuel popped.getLast? { st1 with stack := popped.dropLast }
    | .cancel => msRun behave fuel none st1
    | .err => (.errored, st1)

/-- The empty run state. -/
def msInit {σ : Type} : MSState σ := ⟨[], fun _ => 0, []⟩

/-- Two-step flow in which step `2` raises `back` on its first call and
completes on the second — the scenario of the "goes back a step when one
past the first" test. -/
def twoStepBackOnce : Nat → Nat → StepResult Nat
  | 1, _ => .next 2
  | 2, 0 => .back
  | 2, _ => .done
  | _, _ => .err

/-- A first step that immediately raises `back`. -/
def backOnFirst : Nat → Nat → StepResult Nat
  | _, _ => .back

/-! ## showInputBox widget events (multi-step-quickpick.ts) -/

/-- How the `showInputBox` promise settles: resolved with the accepted
value, or rejected with one of the navigation sentinels raised by
`configureNavigation`. -/
inductive BoxSettle where
  | accepted (v : String)
  | rejectedBack
  | rejectedCancel
deriving DecidableEq

/-- Widget state of one `showInputBox` call: the current text, the widget's
`validationMessage` field, and the (settle-once) state of the returned
promise. -/
structure BoxState where
  value : String
  validationMessage : Option String
  settled : Option BoxSettle
deriving DecidableEq

/-- User interactions the `showInputBox` listeners react to. -/
inductive BoxEvent where
  | changeValue (s : String)
  | accept
  | hide
  | backButton
deriving DecidableEq

/-- A promise settles at most once; later settlement attempts are no-ops. -/
def settleOnce (o : BoxSettle) (st : BoxState) : BoxState :=
  match st.settled with
  | some _ => st
  | none => { st with settled := some o }

/-- The `showInputBox` event handlers.  `onDidChangeValue` recomputes the
validation message from the new text; `onDidAccept` re-validates the
current value and resolves only when validation returns no message (the
widget's `validationMessage` field is not touched by accept);
`onDidHide` rejects with `cancel` and the back button rejects with
`back`, via `configureNavigation`. -/
def boxEvent (validate : String → Option String) :
    BoxEvent → BoxState → BoxState
  | .changeValue s, st =>
    { st with value := s, validationMessage := validate s }
  | .accept, st =>
    match validate st.value with
    | none => settleOnce (.accepted st.value) st
    | some _ => st
  | .hide, st => settleOnce .rejectedCancel st
  | .backButton, st => settleOnce .rejectedBack st

/-- Run a sequence of widget events from the left. -/
def boxEvents (validate : String → Option String)
    (evs : List BoxEvent) (st : BoxState) : BoxState :=
  evs.foldl (fun s e => boxEvent validate e s) st

/-- The freshly shown input box of the manual-entry prompt:
`value` is `""` and no validation message is set. -/
def boxInit : BoxState := ⟨"", none, none⟩

/-- The manual-entry validator of `promptForAuthorizationCode`: an empty
value is an error, anything else is accepted. -/
def nonEmptyValidate (value : String) : Option String :=
  if value.length = 0 then some "Authorization code cannot be empty" else none

/-- The exact-match validator of the spec's text-entry validation example. -/
def needFooValidate (text : String) : Option String :=
  if text = "foo" then none else some "Nope"

/-! ## Nonce→code registry (CodeManager, modelled from the spec §4.1) -/

/-- A pending code-acquisition request, keyed by nonce, carrying its
registration time (the timeout deadline is `regTime + 60000` ms). -/
structure CMEntry where
  nonce : String
  regTime : Nat
deriving DecidableEq

/-- How a registered wait settles: resolved with a code, rejected with
`Cancelled`, rejected with `Timeout`, or the defensive `DuplicateNonce`
failure on double registration. -/
inductive CMSettle where
  | resolvedWith (c : String)
  | cancelled
  | timedOut
  | duplicateNonce
deriving DecidableEq

/-- Registry state: the current time in milliseconds, the table of pending
entries, and the log of settlements (nonce, outcome) in order. -/
structure CMState where
  now : Nat
  entries : List CMEntry
  settles : List (String × CMSettle)
deriving DecidableEq

/-- Modelled from the spec: `CodeManager.waitForCode` (code-manager.ts is
not among the provided sources).  Registers a pending request keyed by
`nonce`; fails with `DuplicateNonce` if one is already pending for that
nonce. -/
def waitForCode (n : String) (st : CMState) : CMState :=
  if st.entries.any (fun e => e.nonce = n) then
    { st with settles := st.settles ++ [(n, .duplicateNonce)] }
  else
    { st with entries := st.entries ++ [⟨n, st.now⟩] }

/-- Modelled from the spec: `CodeManager.resolveCode`.  Looks up the pending
entry for `nonce`; if absent the call is a no-op; if present it resolves
the promise with `code`, clears the timeout and removes the entry. -/
def resolveCode (n c : String) (st : CMState) : CMState :=
  if st.entries.any (fun e => e.nonce = n) then
    { st with
      entries := st.entries.filter (fun e => ¬ e.nonce = n),
      settles := st.settles ++ [(n, .resolvedWith c)] }
  else st

/-- Modelled from the spec: the registration's cancellation signal fires —
the registry rejects the pending promise for `nonce` with `Cancelled` and
removes the entry. -/
def cancelNonce (n : String) (st : CMState) : CMState :=
  if st.entries.any (fun e => e.nonce = n) then
    { st with
      entries := st.entries.filter (fun e => ¬ e.nonce = n),
      settles := st.settles ++ [(n, .cancelled)] }
  else st

/-- Modelled from the spec: advance the clock to time `t`, firing the
timeout callback of every entry whose 60-second ceiling has passed: each
such promise is rejected with `Timeout` and its entry removed. -/
def cmElapse (t : Nat) (st : CMState) : CMState :=
  let now := max st.now t
  { now := now,
    entries := st.entries.filter (fun e => ¬ e.regTime + 60000 ≤ now),
    settles := st.settles ++
      (st.entries.filter (fun e => e.regTime + 60000 ≤ now)).map
        (fun e => (e.nonce, .timedOut)) }

/-! ## ProxiedRedirectFlow.trigger (proxied.ts) -/

/-- Configuration of the flow: the Colab API domain behind
`CONFIG.ColabApiDomain` (colab-config.ts is external configuration) and
the extension URI passed to the constructor. -/
structure FlowConfig where
  colabApiDomain : String
  extensionUri : String

/-- `PROXIED_REDIRECT_URI`: the fixed provider-facing redirect endpoint. -/
def PROXIED_REDIRECT_URI (cfg : FlowConfig) : String :=
  cfg.colabApiDomain ++ "/vscode/redirect"

/-- Settlement of the `trigger` promise: the `FlowResult` on success, or a
`Cancelled`- or `Timeout`-flavoured rejection. -/
inductive TriggerOutcome where
  | success (code : String) (redirectUri : String)
  | cancelled
  | timeout
deriving DecidableEq

/-- State of one `ProxiedRedirectFlow.trigger` invocation, combining the
trigger promise, the single registry entry for its nonce, the shared
cancellation-token source, and the manual-entry input box.  `boxShown`
tracks whether the input box of `promptForAuthorizationCode` is currently
displayed; `tokenSourceDisposed` whether the `finally` of `trigger` has
run. -/
structure FlowState where
  now : Nat
  nonce : String
  regTime : Nat
  pendingEntry : Bool
  result : Option TriggerOutcome
  cancelRequested : Bool
  boxShown : Bool
  tokenSourceDisposed : Bool
deriving DecidableEq

/-- External events one `trigger` invocation reacts to. -/
inductive FlowEvent where
  | deepLink (nonce code : String)
  | acceptCode (v : String)
  | hideBox
  | callerCancel
  | elapse (t : Nat)
deriving DecidableEq

/-- `trigger` at time `t0` with the request's nonce: `waitForCode` has
registered the entry, the authorization URL has been opened externally and
the manual-entry input box is being shown. -/
def triggerInit (nonce : String) (t0 : Nat) : FlowState :=
  { now := t0, nonce := nonce, regTime := t0, pendingEntry := true,
    result := none, cancelRequested := false, boxShown := true,
    tokenSourceDisposed := false }

/-- Registry resolution seen from the flow: if the entry for `n` is pending,
the `waitForCode` promise resolves with `c`, `trigger` returns
`{ code, redirectUri: PROXIED_REDIRECT_URI }`, and its `finally` disposes
the token source.  Otherwise the delivery is a no-op. -/
def flowResolveCode (cfg : FlowConfig) (n c : String) (st : FlowState) :
    FlowState :=
  if st.pendingEntry ∧ n = st.nonce then
    { st with
      pendingEntry := false,
      result := some (.success c (PROXIED_REDIRECT_URI cfg)),
      tokenSourceDisposed := true }
  else st

/-- `cancelTokenSource.cancel()`: the shared token fires; the registry
rejects the pending wait with `Cancelled`, so `trigger` rejects and its
`finally` disposes the token source. -/
def flowCancelToken (st : FlowState) : FlowState :=
  let st1 := { st with cancelRequested := true }
  if st1.pendingEntry then
    { st1 with
      pendingEntry := false,
      result := some .cancelled,
      tokenSourceDisposed := true }
  else st1

/-- One external event processed by the composed flow.

* `deepLink` — the deep-link listener extracts `nonce` and `code`; only
  when both are present and non-empty does it call `resolveCode`
  (modelled from the spec: the listener is part of code-manager.ts).
* `acceptCode` — the user accepts the input box with value `v`; the
  accept handler re-validates and resolves only a non-empty value, upon
  which the step feeds it to `resolveCode` and the run loop ends,
  disposing the box.
* `hideBox` — the user dismisses the box: `showInputBox` rejects with
  `InputFlowAction.cancel`, the run loop ends and disposes the box, and
  the prompt's catch cancels the shared token source.
* `callerCancel` — the caller's `options.cancel` fires, which cancels the
  shared token source (the box is not subscribed to it).
* `elapse t` — time advances to `t`; a pending entry whose 60-second
  ceiling has passed rejects with `Timeout` (modelled from the spec). -/
def flowEvent (cfg : FlowConfig) : FlowEvent → FlowState → FlowState
  | .deepLink n c, st =>
    if ¬ n = "" ∧ ¬ c = "" then flowResolveCode cfg n c st else st
  | .acceptCode v, st =>
    if st.boxShown then
      if v = "" then st
      else flowResolveCode cfg st.nonce v { st with boxShown := false }
    else st
  | .hideBox, st =>
    if st.boxShown then flowCancelToken { st with boxShown := false } else st
  | .callerCancel, st => flowCancelToken st
  | .elapse t, st =>
    let now := max st.now t
    let st1 := { st with now := now }
    if st1.pendingEntry ∧ st1.regTime + 60000 ≤ now then
      { st1 with
        pendingEntry := false,
        result := some .timeout,
        tokenSourceDisposed := true }
    else st1

/-- Run a sequence of flow events from the left. -/
def flowEvents (cfg : FlowConfig) (evs : List FlowEvent) (st : FlowState) :
    FlowState :=
  evs.foldl (fun s e => flowEvent cfg e s) st

/-! ## GoogleAuthProvider.createSession scope and URL handling (provider.ts) -/

/-- `REQUIRED_SCOPES` of provider.ts. -/
def REQUIRED_SCOPES : List String := ["profile", "email"]

/-- JavaScript `new Set([...])` iterated in insertion order: keep the first
occurrence of each element. -/
def jsSetDedup : List String → List String
  | [] => []
  | x :: xs => x :: (jsSetDedup xs).filter (fun y => ¬ y = x)

/-- `Array.from(set).sort()`: the default sort orders strings
lexicographically; embedded as insertion sort under the string order. -/
def jsSortStrings (l : List String) : List String :=
  l.insertionSort (fun a b => a ≤ b)

/-- The `sortedScopes` computed by `createSession`:
`Array.from(new Set([...scopes, ...REQUIRED_SCOPES])).sort()`. -/
def createSessionSortedScopes (scopes : List String) : List String :=
  jsSortStrings (jsSetDedup (scopes ++ REQUIRED_SCOPES))

/-- The query parameters `login` passes to `generateAuthUrl`
(`generateAuthUrl` itself is an opaque external capability carrying them
into the authorization URL). -/
structure AuthUrlOpts where
  response_type : String
  scope : String
  state : String
  prompt : String
  code_challenge_method : String
  code_challenge : String
deriving DecidableEq

/-- The authorization-URL parameters built during
`createSession`/`login`: `response_type=code`, the space-joined sorted
scope list, the externalized callback URI in `state`, `prompt=login`, and
the S256 PKCE challenge. -/
def createSessionAuthUrlOpts (scopes : List String)
    (callbackUri challenge : String) : AuthUrlOpts :=
  { response_type := "code",
    scope := String.intercalate " " (createSessionSortedScopes scopes),
    state := callbackUri,
    prompt := "login",
    code_challenge_method := "S256",
    code_challenge := challenge }

/-! ## AuthStorage (storage.ts) -/

/-- A JSON value, the common currency between `JSON.stringify` /
`JSON.parse` (the platform text codec, treated as an exact inverse pair)
and the Zod schema. -/
inductive Json where
  | str (s : String)
  | num (n : Int)
  | bool (b : Bool)
  | null
  | arr (xs : List Json)
  | obj (fields : List (String × Json))

/-- `vscode.AuthenticationSessionAccountInformation`. -/
structure SessionAccount where
  id : String
  label : String
deriving DecidableEq

/-- `vscode.AuthenticationSession` as stored by `AuthStorage`. -/
structure AuthSession where
  id : String
  accessToken : String
  account : SessionAccount
  scopes : List String
deriving DecidableEq

/-- The JSON object a session serializes to. -/
def sessionToJson (s : AuthSession) : Json :=
  .obj [("id", .str s.id),
        ("accessToken", .str s.accessToken),
        ("account", .obj [("id", .str s.account.id),
                          ("label", .str s.account.label)]),
        ("scopes", .arr (s.scopes.map .str))]

/-- `z.string()`. -/
def zodString : Json → Option String
  | .str s => some s
  | _ => none

/-- Field access of `z.object`: the value under the key, if present. -/
def jsonField (key : String) : Json → Option Json
  | .obj fields => fields.lookup key
  | _ => none

/-- `AuthenticationSessionAccountInformationSchema`. -/
def zodAccount (j : Json) : Option SessionAccount := do
  let id ← jsonField "id" j >>= zodString
  let label ← jsonField "label" j >>= zodString
  pure ⟨id, label⟩

/-- Element-wise parse of a `z.array(...)` schema: every element must
parse, in order. -/
def zodElements (f : Json → Option α) : List Json → Option (List α)
  | [] => some []
  | x :: xs => do
    let y ← f x
    let ys ← zodElements f xs
    pure (y :: ys)

/-- `z.array(z.string())` for the `scopes` field. -/
def zodScopes : Json → Option (List String)
  | .arr xs => zodElements zodString xs
  | _ => none

/-- The element schema of `AuthenticationSessionsSchema`. -/
def zodSession (j : Json) : Option AuthSession := do
  let id ← jsonField "id" j >>= zodString
  let accessToken ← jsonField "accessToken" j >>= zodString
  let account ← jsonField "account" j >>= zodAccount
  let scopes ← jsonField "scopes" j >>= zodScopes
  pure ⟨id, accessToken, account, scopes⟩

/-- `AuthenticationSessionsSchema`: an array of session objects of length
exactly 1; `parseAuthenticationSessions` throws (here: `none`) on any
shape violation. -/
def parseAuthenticationSessions (j : Json) : Option (List AuthSession) :=
  match j with
  | .arr xs => do
    let sessions ← zodElements zodSession xs
    if sessions.length = 1 then some sessions else none
  | _ => none

/-- The secret-storage backend under the single `SESSIONS_KEY`: the stored
sessions JSON (text modelled as its parsed JSON value) and whether
`delete` has been called. -/
structure SecretStore where
  value : Option Json
  deleteCalled : Bool

/-- `AuthStorage.getSession`: `undefined` when nothing is stored, otherwise
Zod-parse the stored JSON, re-check that exactly one session is present,
and return it.  Schema violations surface as errors. -/
def getSession (st : SecretStore) : Except String (Option AuthSession) :=
  match st.value with
  | none => .ok none
  | some j =>
    match parseAuthenticationSessions j with
    | none => .error "schema violation"
    | some sessions =>
      if ¬ sessions.length = 1 then
        .error "Unexpected number of sessions"
      else .ok sessions.head?

/-- `AuthStorage.storeSession`: store the single-element sessions array. -/
def storeSession (s : AuthSession) (st : SecretStore) : SecretStore :=
  { st with value := some (.arr [sessionToJson s]) }

/-- `AuthStorage.removeSession`: read the stored session; return `undefined`
when nothing is stored or the id differs (leaving the backing storage
untouched), otherwise delete the entry and return the session. -/
def removeSession (sessionId : String) (st : SecretStore) :
    Except String (Option AuthSession × SecretStore) :=
  match getSession st with
  | .error e => .error e
  | .ok none => .ok (none, st)
  | .ok (some s) =>
    if ¬ s.id = sessionId then .ok (none, st)
    else .ok (some s, { st with value := none, deleteCalled := true })

/-! ## Concrete fixtures for closed evaluations -/

/-- A concrete flow configuration. -/
def cfg0 : FlowConfig := ⟨"https://colab.example", "vscode://google.colab"⟩

/-- A step that always raises `cancel`. -/
def cancelAlways : Nat → Nat → StepResult Nat := fun _ _ => .cancel

/-! ## Helper lemmas -/

theorem mem_jsSetDedup (a : String) :
    ∀ l : List String, a ∈ jsSetDedup l ↔ a ∈ l := by
  intro l
  induction l with
  | nil => simp [jsSetDedup]
  | cons x xs ih =>
    simp only [jsSetDedup, List.mem_cons, List.mem_filter, ih,
      decide_eq_true_eq]
    by_cases h : a = x <;> simp [h]

theorem nodup_jsSetDedup : ∀ l : List String, (jsSetDedup l).Nodup := by
  intro l
  induction l with
  | nil => simp [jsSetDedup]
  | cons x xs ih =>
    simp only [jsSetDedup, List.nodup_cons]
    refine ⟨fun hmem => ?_, ih.filter _⟩
    have := (List.mem_filter.mp hmem).2
    simp at this

theorem sorted_createSessionSortedScopes (scopes : List String) :
    (createSessionSortedScopes scopes).Sorted (fun a b => a ≤ b) :=
  List.sorted_insertionSort _ _

theorem nodup_createSessionSortedScopes (scopes : List String) :
    (createSessionSortedScopes scopes).Nodup :=
  (List.perm_insertionSort _ _).nodup_iff.mpr (nodup_jsSetDedup _)

theorem mem_createSessionSortedScopes (a : String) (scopes : List String) :
    a ∈ createSessionSortedScopes scopes ↔
      a ∈ scopes ∨ a ∈ REQUIRED_SCOPES := by
  unfold createSessionSortedScopes jsSortStrings
  rw [List.mem_insertionSort, mem_jsSetDedup, List.mem_append]

/-! ## Claims about the MultiStepInput run loop and input box -/

/-- C4: when a step raises `Back` the step that just ran is removed from
the stack; if the stack is then empty `Back` propagates out of the whole
run (witnessed by `backOnFirst`, which backs out with call trace `[1]`),
otherwise the prior step is popped and re-invoked — so the two-step flow
`twoStepBackOnce`, where step 2 raises `Back` once and then completes,
completes with the step call order `[1, 2, 1, 2]`. -/
theorem back_navigation_call_order :
    (msRun twoStepBackOnce 8 (some 1) msInit).1 = .completed ∧
    (msRun twoStepBackOnce 8 (some 1) msInit).2.trace = [1, 2, 1, 2] ∧
    (msRun backOnFirst 8 (some 1) msInit).1 = .backedOut ∧
    (msRun backOnFirst 8 (some 1) msInit).2.trace = [1] := by
  refine ⟨?_, ?_, ?_, ?_⟩ <;> rfl

/-- C5: when the current step raises `Cancel`, the run loop stops and the
run fulfills with `completed` (no exception escapes), and no step beyond
the one that raised `Cancel` is invoked (the trace is extended by that
step only). -/
theorem cancel_halts_run {σ : Type} [DecidableEq σ]
    (behave : σ → Nat → StepResult σ) (fuel : Nat) (s : σ) (st : MSState σ)
    (h : behave s (st.counts s) = .cancel) :
    msRun behave (fuel + 1) (some s) st =
      (.completed,
        ⟨st.stack ++ [s],
          fun t => if t = s then st.counts s + 1 else st.counts t,
          st.trace ++ [s]⟩) := by
  simp [msRun, h]

/-- Witness for C5: a concrete one-step cancelling run. -/
theorem cancel_halts_run_witness :
    msRun cancelAlways 1 (some 1) msInit =
      (.completed,
        ⟨msInit.stack ++ [1],
          fun t => if t = 1 then msInit.counts 1 + 1 else msInit.counts t,
          msInit.trace ++ [1]⟩) :=
  cancel_halts_run cancelAlways 0 1 msInit rfl

/-- C6: `showInputBox` re-runs the validator on every value change and
stores the result in the widget's validation message; accepting resolves
the promise with the current value exactly when validation of that value
returns no error, and an accept attempt while validation yields an error
leaves the promise unresolved.  Concretely, with the exact-match `"foo"`
validator, typing `"f"`, `"fo"`, `"foo"` yields a non-empty message for
the first two and an empty one for the third, an accept after `"fo"` does
not settle, and an accept after `"foo"` settles with `"foo"`. -/
theorem input_box_validation (validate : String → Option String)
    (st : BoxState) (s : String) :
    (boxEvent validate (.changeValue s) st).validationMessage = validate s ∧
    (boxEvent validate (.changeValue s) st).value = s ∧
    (boxEvent validate .accept st).settled =
      (match validate st.value, st.settled with
        | none, none => some (.accepted st.value)
        | _, _ => st.settled) ∧
    (boxEvents needFooValidate [.changeValue "f"] boxInit).validationMessage
        = some "Nope" ∧
    (boxEvents needFooValidate [.changeValue "f", .accept] boxInit).settled
        = none ∧
    (boxEvents needFooValidate
        [.changeValue "f", .changeValue "fo"] boxInit).validationMessage
        = some "Nope" ∧
    (boxEvents needFooValidate
        [.changeValue "f", .changeValue "fo", .accept] boxInit).settled
        = none ∧
    (boxEvents needFooValidate
        [.changeValue "f", .changeValue "fo", .changeValue "foo"]
        boxInit).validationMessage = none ∧
    (boxEvents needFooValidate
        [.changeValue "f", .changeValue "fo", .changeValue "foo", .accept]
        boxInit).settled = some (.accepted "foo") := by
  refine ⟨rfl, rfl, ?_, by decide, by decide, by decide, by decide,
    by decide, by decide⟩
  cases hv : validate st.value with
  | none =>
    cases hs : st.settled with
    | none => simp [boxEvent, hv, settleOnce, hs]
    | some o => simp [boxEvent, hv, settleOnce, hs]
  | some m => simp [boxEvent, hv]

/-! ## Claims about ProxiedRedirectFlow.trigger and the registry -/

/-- C1: after a successful deep-link delivery for the request's nonce, the
trigger promise resolves with `{ code, redirectUri }` where `code` is the
delivered value and `redirectUri` is the fixed provider-facing proxied
endpoint `ColabApiDomain ++ "/vscode/redirect"` — in particular not the
externalized callback URI whenever that differs from the fixed one. -/
theorem trigger_resolves_with_proxied_redirect (cfg : FlowConfig)
    (n c : String) (t0 : Nat) (hn : ¬ n = "") (hc : ¬ c = "") :
    (flowEvent cfg (.deepLink n c) (triggerInit n t0)).result =
      some (.success c (cfg.colabApiDomain ++ "/vscode/redirect")) ∧
    ∀ ext : String, ¬ ext = cfg.colabApiDomain ++ "/vscode/redirect" →
      ¬ (flowEvent cfg (.deepLink n c) (triggerInit n t0)).result =
          some (.success c ext) := by
  have h1 : (flowEvent cfg (.deepLink n c) (triggerInit n t0)).result =
      some (.success c (cfg.colabApiDomain ++ "/vscode/redirect")) := by
    simp [flowEvent, triggerInit, flowResolveCode, PROXIED_REDIRECT_URI,
      hn, hc]
  refine ⟨h1, fun ext hext heq => hext ?_⟩
  rw [h1] at heq
  have := (Option.some_inj.mp heq)
  cases this
  rfl

/-- Witness for C1: the spec's end-to-end example, nonce `"n1"` and code
`"42"`. -/
theorem trigger_resolves_with_proxied_redirect_witness :
    (flowEvent cfg0 (.deepLink "n1" "42") (triggerInit "n1" 0)).result =
      some (.success "42" (cfg0.colabApiDomain ++ "/vscode/redirect")) :=
  (trigger_resolves_with_proxied_redirect cfg0 "n1" "42" 0 (by decide)
    (by decide)).1

/-- C2: dismissing the manual-entry input box raises the `Cancel` sentinel
in `showInputBox`; the prompt's handler cancels the single shared
cancellation token, the registry wait observes it and rejects, so the
whole trigger promise rejects with a `Cancelled`-flavoured error.  The
pending entry is removed and the box is disposed by the run loop. -/
theorem dismiss_cancels_trigger (cfg : FlowConfig) (n : String) (t0 : Nat) :
    (flowEvent cfg .hideBox (triggerInit n t0)).cancelRequested = true ∧
    (flowEvent cfg .hideBox (triggerInit n t0)).result = some .cancelled ∧
    (flowEvent cfg .hideBox (triggerInit n t0)).pendingEntry = false ∧
    (flowEvent cfg .hideBox (triggerInit n t0)).boxShown = false := by
  refine ⟨?_, ?_, ?_, ?_⟩ <;>
    simp [flowEvent, triggerInit, flowCancelToken]

/-- C3: a `waitForCode` registration at time `T0` that sees no delivery and
no cancellation is still pending at every time strictly before
`T0 + 60000` ms, and rejects with `Timeout` (its entry removed) at
`T0 + 60000` ms and beyond. -/
theorem wait_for_code_timeout_at_60s (n : String) (t0 t : Nat) :
    (t < t0 + 60000 →
      (cmElapse t (waitForCode n ⟨t0, [], []⟩)).entries = [⟨n, t0⟩] ∧
      (cmElapse t (waitForCode n ⟨t0, [], []⟩)).settles = []) ∧
    (t0 + 60000 ≤ t →
      (cmElapse t (waitForCode n ⟨t0, [], []⟩)).entries = [] ∧
      (cmElapse t (waitForCode n ⟨t0, [], []⟩)).settles =
        [(n, .timedOut)]) := by
  have hw : waitForCode n ⟨t0, [], []⟩ = ⟨t0, [⟨n, t0⟩], []⟩ := by
    simp [waitForCode]
  constructor
  · intro h
    have hlt : ¬ t0 + 60000 ≤ max t0 t := by omega
    rw [hw]
    simp [cmElapse, List.filter, hlt]
  · intro h
    have hle : t0 + 60000 ≤ max t0 t := by omega
    rw [hw]
    simp [cmElapse, List.filter, hle]

/-- Witness for C3: one millisecond before the ceiling the entry is still
pending; at the ceiling it rejects with `Timeout` and is removed. -/
theorem wait_for_code_timeout_at_60s_witness :
    ((cmElapse 59999 (waitForCode "n1" ⟨0, [], []⟩)).entries = [⟨"n1", 0⟩] ∧
      (cmElapse 59999 (waitForCode "n1" ⟨0, [], []⟩)).settles = []) ∧
    ((cmElapse 60000 (waitForCode "n1" ⟨0, [], []⟩)).entries = [] ∧
      (cmElapse 60000 (waitForCode "n1" ⟨0, [], []⟩)).settles =
        [("n1", .timedOut)]) :=
  ⟨(wait_for_code_timeout_at_60s "n1" 0 59999).1 (by decide),
    (wait_for_code_timeout_at_60s "n1" 0 60000).2 (by decide)⟩

/-- Counterexample to C7: after the 60-second ceiling passes, the trigger
promise rejects with `Timeout`, yet the manual-entry input box is still
displayed — nothing on the timeout path settles the `showInputBox`
promise, so the run loop's cleanup never runs. -/
theorem timeout_leaves_box_displayed :
    (flowEvent cfg0 (.elapse 60000) (triggerInit "n1" 0)).result =
      some .timeout ∧
    (flowEvent cfg0 (.elapse 60000) (triggerInit "n1" 0)).boxShown
      = true := by
  decide

/-- C7 as amended: the cancellation-token source is disposed and the timer
entry cleared on every settlement of the trigger promise, and the
manual-entry UI is disposed on the exits driven by the input box itself
(the user accepting a non-empty code, or dismissing the box); but after
the trigger rejects with `Timeout` the input box remains displayed. -/
theorem cleanup_on_box_driven_exits (cfg : FlowConfig) (n v : String)
    (t0 : Nat) (hv : ¬ v = "") :
    (flowEvent cfg .hideBox (triggerInit n t0)).boxShown = false ∧
    (flowEvent cfg .hideBox (triggerInit n t0)).tokenSourceDisposed
      = true ∧
    (flowEvent cfg .hideBox (triggerInit n t0)).pendingEntry = false ∧
    (flowEvent cfg (.acceptCode v) (triggerInit n t0)).boxShown = false ∧
    (flowEvent cfg (.acceptCode v) (triggerInit n t0)).tokenSourceDisposed
      = true ∧
    (flowEvent cfg (.acceptCode v) (triggerInit n t0)).pendingEntry
      = false ∧
    (flowEvent cfg (.elapse (t0 + 60000)) (triggerInit n t0)).result =
      some .timeout ∧
    (flowEvent cfg (.elapse (t0 + 60000))
        (triggerInit n t0)).tokenSourceDisposed = true ∧
    (flowEvent cfg (.elapse (t0 + 60000)) (triggerInit n t0)).pendingEntry
      = false ∧
    (flowEvent cfg (.elapse (t0 + 60000)) (triggerInit n t0)).boxShown
      = true := by
  have hmax : max t0 (t0 + 60000) = t0 + 60000 := by omega
  refine ⟨?_, ?_, ?_, ?_, ?_, ?_, ?_, ?_, ?_, ?_⟩ <;>
    simp [flowEvent, triggerInit, flowCancelToken, flowResolveCode, hv,
      hmax]

/-- Witness for the amended C7 at a concrete accepted code. -/
theorem cleanup_on_box_driven_exits_witness :
    (flowEvent cfg0 (.acceptCode "42") (triggerInit "n1" 0)).boxShown
        = false ∧
    (flowEvent cfg0 (.elapse (0 + 60000)) (triggerInit "n1" 0)).boxShown
        = true :=
  ⟨(cleanup_on_box_driven_exits cfg0 "n1" "42" 0 (by decide)).2.2.2.1,
    (cleanup_on_box_driven_exits cfg0 "n1" "42" 0
      (by decide)).2.2.2.2.2.2.2.2.2⟩

/-! ## Claims about provider.ts and storage.ts -/

/-- C8: the authorization URL built during `createSession` carries
`response_type=code`, the callback URI in `state`, and a `scope` equal to
the space-joined sorted deduplicated union of the requested scopes with
the required scopes `["profile", "email"]`. -/
theorem auth_url_parameters (scopes : List String) (cb ch : String) :
    (createSessionAuthUrlOpts scopes cb ch).response_type = "code" ∧
    (createSessionAuthUrlOpts scopes cb ch).state = cb ∧
    (createSessionAuthUrlOpts scopes cb ch).scope =
      String.intercalate " " (createSessionSortedScopes scopes) ∧
    (createSessionSortedScopes scopes).Sorted (fun a b => a ≤ b) ∧
    (createSessionSortedScopes scopes).Nodup ∧
    ∀ a, a ∈ createSessionSortedScopes scopes ↔
      a ∈ scopes ∨ a ∈ ["profile", "email"] :=
  ⟨rfl, rfl, rfl, sorted_createSessionSortedScopes scopes,
    nodup_createSessionSortedScopes scopes,
    fun a => mem_createSessionSortedScopes a scopes⟩

theorem zodElements_map_str (l : List String) :
    zodElements zodString (l.map Json.str) = some l := by
  induction l with
  | nil => rfl
  | cons x xs ih => simp [zodElements, zodString, ih]

theorem zodSession_sessionToJson (s : AuthSession) :
    zodSession (sessionToJson s) = some s := by
  simp [zodSession, sessionToJson, jsonField, List.lookup, zodString,
    zodAccount, zodScopes, zodElements_map_str]

theorem getSession_storeSession (s : AuthSession) (st : SecretStore) :
    getSession (storeSession s st) = .ok (some s) := by
  simp [getSession, storeSession, parseAuthenticationSessions, zodElements,
    zodSession_sessionToJson]

/-- C9: for every authentication session, `storeSession` followed by
`getSession` returns the same session — the serialize-then-Zod-parse
round trip through the single-element sessions array is the identity. -/
theorem store_get_roundtrip (s : AuthSession) (st : SecretStore) :
    getSession (storeSession s st) = .ok (some s) :=
  getSession_storeSession s st

/-- C10: `removeSession` deletes the backing entry and returns the stored
session exactly when a session is stored and its id matches; with nothing
stored, or on an id mismatch, it returns `undefined` and leaves the
backing storage untouched (`delete` is never called). -/
theorem remove_session_iff_id_matches (sid : String) (s : AuthSession)
    (st : SecretStore) (b : Bool) :
    removeSession sid ⟨none, b⟩ = .ok (none, ⟨none, b⟩) ∧
    removeSession sid (storeSession s st) =
      (if s.id = sid
        then .ok (some s, ⟨none, true⟩)
        else .ok (none, storeSession s st)) := by
  constructor
  · rfl
  · rw [removeSession, getSession_storeSession]
    by_cases h : s.id = sid <;> simp [h, storeSession]
